import Mathlib

/-!
Verification of the Phosphom kinase motif-matching and scoring core.

Strings are modelled as `List Char`; floating-point specificity scores are
modelled as exact rationals (`ℚ`), since every score in the database is a
two-digit decimal literal and all the code does with them is compare and
copy them (the scores are written `mkRat n 100`, the exact value of the
source's decimal literal; `n/100` is exactly representable order-wise:
distinct two-digit decimals stay distinct and ordered the same way as the
binary floats the Python runtime compares).  Each pre-compiled regular expression of `motif_db.py` is
translated into a decidable prefix-matching predicate (`... → Bool`) over
the amino-acid window, and `re.Pattern.search` is modelled by testing that
predicate on every suffix of the window.  Python's truncating slice
arithmetic `max(0, i-7)`/`min(len, i+8)` is mirrored by natural-number
subtraction, which is already clamped at zero.
-/

/-- Character class `[RK]`. -/
def isRK (c : Char) : Bool := c = 'R' || c = 'K'

/-- Character class `[ST]`. -/
def isST (c : Char) : Bool := c = 'S' || c = 'T'

/-- Character class `[LIV]`. -/
def isLIV (c : Char) : Bool := c = 'L' || c = 'I' || c = 'V'

/-- Character class `[LIVM]`. -/
def isLIVM (c : Char) : Bool := c = 'L' || c = 'I' || c = 'V' || c = 'M'

/-- Character class `[LIVMF]`. -/
def isLIVMF (c : Char) : Bool := c = 'L' || c = 'I' || c = 'V' || c = 'M' || c = 'F'

/-- Character class `[LIVMFY]`. -/
def isLIVMFY (c : Char) : Bool :=
  c = 'L' || c = 'I' || c = 'V' || c = 'M' || c = 'F' || c = 'Y'

/-- Character class `[DE]`. -/
def isDE (c : Char) : Bool := c = 'D' || c = 'E'

/-- Character class `[PLV]`. -/
def isPLV (c : Char) : Bool := c = 'P' || c = 'L' || c = 'V'

/-- Character class `[FLIV]`. -/
def isFLIV (c : Char) : Bool := c = 'F' || c = 'L' || c = 'I' || c = 'V'

/-- Does position `i` of `l` exist and satisfy the class `cls`?
(One regex character-class or literal consuming one input character.) -/
def classAt (cls : Char → Bool) (l : List Char) (i : Nat) : Bool :=
  match l[i]? with
  | some c => cls c
  | none => false

/-- Does position `i` of `l` exist?  (The regex wildcard `.`.) -/
def anyAt (l : List Char) (i : Nat) : Bool := i < l.length

/-- The negative lookahead `(?!P)` at position `i`: succeeds when position `i`
is past the end of the input or holds a character other than `P`.
It consumes nothing. -/
def noPAt (l : List Char) (i : Nat) : Bool :=
  match l[i]? with
  | some c => c ≠ 'P'
  | none => true

/-- `([RK][RK].([ST]))|([RK].{1,2}([ST]))` (PKA). -/
def pkaPat (l : List Char) : Bool :=
  (classAt isRK l 0 && classAt isRK l 1 && anyAt l 2 && classAt isST l 3)
  || (classAt isRK l 0 &&
        ((anyAt l 1 && classAt isST l 2)
          || (anyAt l 1 && anyAt l 2 && classAt isST l 3)))

/-- `R.[RK]..([ST])(?!P)[LIVMFY]` (AKT). -/
def aktPat (l : List Char) : Bool :=
  classAt (· = 'R') l 0 && anyAt l 1 && classAt isRK l 2 && anyAt l 3 && anyAt l 4
    && classAt isST l 5 && noPAt l 6 && classAt isLIVMFY l 6

/-- `([LIVMF].R.([ST])(?!P).{2}[LIVMF])|([LIVMF].R..([ST])(?!P))` (AMPK). -/
def ampkPat (l : List Char) : Bool :=
  (classAt isLIVMF l 0 && anyAt l 1 && classAt (· = 'R') l 2 && anyAt l 3
     && classAt isST l 4 && noPAt l 5 && anyAt l 5 && anyAt l 6 && classAt isLIVMF l 7)
  || (classAt isLIVMF l 0 && anyAt l 1 && classAt (· = 'R') l 2 && anyAt l 3
        && anyAt l 4 && classAt isST l 5 && noPAt l 6)

/-- `[RK]R..([ST])[LIVMF]` (S6K1). -/
def s6k1Pat (l : List Char) : Bool :=
  classAt isRK l 0 && classAt (· = 'R') l 1 && anyAt l 2 && anyAt l 3
    && classAt isST l 4 && classAt isLIVMF l 5

/-- `R.R..([ST])[LIV]` (SGK1). -/
def sgk1Pat (l : List Char) : Bool :=
  classAt (· = 'R') l 0 && anyAt l 1 && classAt (· = 'R') l 2 && anyAt l 3
    && anyAt l 4 && classAt isST l 5 && classAt isLIV l 6

/-- `[RK]R.([ST])` (RSK). -/
def rskPat (l : List Char) : Bool :=
  classAt isRK l 0 && classAt (· = 'R') l 1 && anyAt l 2 && classAt isST l 3

/-- `[RK].([ST])[LIV][RK]` (PKC). -/
def pkcPat (l : List Char) : Bool :=
  classAt isRK l 0 && anyAt l 1 && classAt isST l 2 && classAt isLIV l 3
    && classAt isRK l 4

/-- `L.R..([ST])` (PKD). -/
def pkdPat (l : List Char) : Bool :=
  classAt (· = 'L') l 0 && anyAt l 1 && classAt (· = 'R') l 2 && anyAt l 3
    && anyAt l 4 && classAt isST l 5

/-- `[LIVM][RK].([ST]).{2}[LIVM]` (LKB1). -/
def lkb1Pat (l : List Char) : Bool :=
  classAt isLIVM l 0 && classAt isRK l 1 && anyAt l 2 && classAt isST l 3
    && anyAt l 4 && anyAt l 5 && classAt isLIVM l 6

/-- `([ST])P.[RK]` (CDK). -/
def cdkPat (l : List Char) : Bool :=
  classAt isST l 0 && classAt (· = 'P') l 1 && anyAt l 2 && classAt isRK l 3

/-- `[PLV].([ST])P` (Erk). -/
def erkPat (l : List Char) : Bool :=
  classAt isPLV l 0 && anyAt l 1 && classAt isST l 2 && classAt (· = 'P') l 3

/-- `P.([ST])P` (JNK). -/
def jnkPat (l : List Char) : Bool :=
  classAt (· = 'P') l 0 && anyAt l 1 && classAt isST l 2 && classAt (· = 'P') l 3

/-- `[LIVMFY].([ST])P` (p38&MAPK). -/
def p38Pat (l : List Char) : Bool :=
  classAt isLIVMFY l 0 && anyAt l 1 && classAt isST l 2 && classAt (· = 'P') l 3

/-- `([ST])P[FLIV]` (mTOR). -/
def mtorPat (l : List Char) : Bool :=
  classAt isST l 0 && classAt (· = 'P') l 1 && classAt isFLIV l 2

/-- `([ST]).{3}[ST]` (GSK-3beta). -/
def gsk3Pat (l : List Char) : Bool :=
  classAt isST l 0 && anyAt l 1 && anyAt l 2 && anyAt l 3 && classAt isST l 4

/-- `R..([ST])P` (DYRK1A). -/
def dyrkPat (l : List Char) : Bool :=
  classAt (· = 'R') l 0 && anyAt l 1 && anyAt l 2 && classAt isST l 3
    && classAt (· = 'P') l 4

/-- `([ST])P.K` (HIPK2). -/
def hipk2Pat (l : List Char) : Bool :=
  classAt isST l 0 && classAt (· = 'P') l 1 && anyAt l 2 && classAt (· = 'K') l 3

/-- `([ST])P.R` (BUB1). -/
def bub1Pat (l : List Char) : Bool :=
  classAt isST l 0 && classAt (· = 'P') l 1 && anyAt l 2 && classAt (· = 'R') l 3

/-- `([ST])(?!P).{1,2}[DE]{2,3}` (CK2).  For a plain match/no-match search the
third, optional `[DE]` repetition never matters, so the two bounded
repetition counts of `.{1,2}` are expanded as an alternation. -/
def ck2Pat (l : List Char) : Bool :=
  classAt isST l 0 && noPAt l 1 &&
    ((anyAt l 1 && classAt isDE l 2 && classAt isDE l 3)
      || (anyAt l 1 && anyAt l 2 && classAt isDE l 3 && classAt isDE l 4))

/-- `([DE]{1,2}.{1,2}([ST]))|(([ST]).{2,3}([ST]))` (CK1), with the bounded
repetitions expanded into alternations. -/
def ck1Pat (l : List Char) : Bool :=
  ((classAt isDE l 0 && anyAt l 1 && classAt isST l 2)
    || (classAt isDE l 0 && anyAt l 1 && anyAt l 2 && classAt isST l 3)
    || (classAt isDE l 0 && classAt isDE l 1 && anyAt l 2 && classAt isST l 3)
    || (classAt isDE l 0 && classAt isDE l 1 && anyAt l 2 && anyAt l 3
          && classAt isST l 4))
  || (classAt isST l 0 &&
        ((anyAt l 1 && anyAt l 2 && classAt isST l 3)
          || (anyAt l 1 && anyAt l 2 && anyAt l 3 && classAt isST l 4)))

/-- `[DE].([ST])[LIVMF]` (PLK1). -/
def plk1Pat (l : List Char) : Bool :=
  classAt isDE l 0 && anyAt l 1 && classAt isST l 2 && classAt isLIVMF l 3

/-- `([ST])Q` (ATM&ATR). -/
def atmPat (l : List Char) : Bool :=
  classAt isST l 0 && classAt (· = 'Q') l 1

/-- `([ST])Q[DE]` (DNA-PK). -/
def dnapkPat (l : List Char) : Bool :=
  classAt isST l 0 && classAt (· = 'Q') l 1 && classAt isDE l 2

/-- `[DE].{1,2}([ST])G.([ST])` (IKK), repetition expanded. -/
def ikkPat (l : List Char) : Bool :=
  classAt isDE l 0 &&
    ((anyAt l 1 && classAt isST l 2 && classAt (· = 'G') l 3 && anyAt l 4
        && classAt isST l 5)
      || (anyAt l 1 && anyAt l 2 && classAt isST l 3 && classAt (· = 'G') l 4
            && anyAt l 5 && classAt isST l 6))

/-- `[RK]..([ST])([LIVMF])?` (CaMK2).  The trailing optional group can always
be satisfied by matching zero characters, so it does not constrain a plain
match/no-match search. -/
def camk2Pat (l : List Char) : Bool :=
  classAt isRK l 0 && anyAt l 1 && anyAt l 2 && classAt isST l 3

/-- `[RK].([ST])[LIVMF]` (Aurora A). -/
def auroraAPat (l : List Char) : Bool :=
  classAt isRK l 0 && anyAt l 1 && classAt isST l 2 && classAt isLIVMF l 3

/-- `[RK]R.([ST])[LIVMF]` (Aurora B). -/
def auroraBPat (l : List Char) : Bool :=
  classAt isRK l 0 && classAt (· = 'R') l 1 && anyAt l 2 && classAt isST l 3
    && classAt isLIVMF l 4

/-- `[LIVMF]R..([ST])` (Chk1). -/
def chk1Pat (l : List Char) : Bool :=
  classAt isLIVMF l 0 && classAt (· = 'R') l 1 && anyAt l 2 && anyAt l 3
    && classAt isST l 4

/-- `R..([ST])[LIVMF]` (Chk2). -/
def chk2Pat (l : List Char) : Bool :=
  classAt (· = 'R') l 0 && anyAt l 1 && anyAt l 2 && classAt isST l 3
    && classAt isLIVMF l 4

/-- `[LIVMF]R..([ST])` (NEK2; textually identical to the Chk1 pattern). -/
def nek2Pat (l : List Char) : Bool :=
  classAt isLIVMF l 0 && classAt (· = 'R') l 1 && anyAt l 2 && anyAt l 3
    && classAt isST l 4

/-- `[LIVM].R.([ST])` (MK2). -/
def mk2Pat (l : List Char) : Bool :=
  classAt isLIVM l 0 && anyAt l 1 && classAt (· = 'R') l 2 && anyAt l 3
    && classAt isST l 4

/-- A single kinase recognition motif entry (`MotifEntry` in `motif_db.py`).
The `pattern` field holds the prefix-matching predicate of the entry's
compiled regex: `pattern l` decides whether the regex matches at the start
of `l`. -/
structure MotifEntry where
  kinase : String
  pattern : List Char → Bool
  specificity : ℚ
  description : String

/-- `re.Pattern.search`: the pattern matches somewhere within `l`, i.e. at the
start of some suffix of `l`. -/
def reSearch (p : List Char → Bool) (l : List Char) : Bool := l.tails.any p

/-- `WINDOW_HALF` from `motif_db.py`: half window radius, ±7 residues. -/
def WINDOW_HALF : Nat := 7

/-- `MOTIF_DB` from `motif_db.py`: the 31 motif entries in declaration order.
Specificity scores are the exact decimal literals of the source. -/
def MOTIF_DB : List MotifEntry := [
  { kinase := "PKA", pattern := pkaPat, specificity := mkRat 60 100,
    description := "[R/K][R/K]-X-S/T | [R/K]-X(1-2)-S/T" },
  { kinase := "AKT", pattern := aktPat, specificity := mkRat 85 100,
    description := "R-X-[R/K]-X-X-S/T-!P-F" },
  { kinase := "AMPK", pattern := ampkPat, specificity := mkRat 70 100,
    description := "F-X-R-X-S/T-!P-X-X-F | F-X-R-X-X-S/T-!P" },
  { kinase := "S6K1", pattern := s6k1Pat, specificity := mkRat 75 100,
    description := "[R/K]-R-X-X-S/T-F" },
  { kinase := "SGK1", pattern := sgk1Pat, specificity := mkRat 80 100,
    description := "R-X-R-X-X-S/T-[L/I/V]" },
  { kinase := "RSK", pattern := rskPat, specificity := mkRat 60 100,
    description := "[R/K]-R-X-S/T" },
  { kinase := "PKC", pattern := pkcPat, specificity := mkRat 75 100,
    description := "[R/K]-X-S/T-F-[R/K]" },
  { kinase := "PKD", pattern := pkdPat, specificity := mkRat 70 100,
    description := "L-X-R-X-X-S/T" },
  { kinase := "LKB1", pattern := lkb1Pat, specificity := mkRat 70 100,
    description := "F-[R/K]-X-S/T-X-X-F" },
  { kinase := "CDK", pattern := cdkPat, specificity := mkRat 80 100,
    description := "S/T-P-X-[K/R]" },
  { kinase := "Erk", pattern := erkPat, specificity := mkRat 70 100,
    description := "[P/L/V]-X-S/T-P" },
  { kinase := "JNK", pattern := jnkPat, specificity := mkRat 75 100,
    description := "P-X-S/T-P" },
  { kinase := "p38&MAPK", pattern := p38Pat, specificity := mkRat 60 100,
    description := "F-X-S/T-P" },
  { kinase := "mTOR", pattern := mtorPat, specificity := mkRat 65 100,
    description := "S/T-P-F" },
  { kinase := "GSK-3beta", pattern := gsk3Pat, specificity := mkRat 30 100,
    description := "S/T-X-X-X-S/T (priming required - high FP without evidence)" },
  { kinase := "DYRK1A", pattern := dyrkPat, specificity := mkRat 75 100,
    description := "R-X-X-S/T-P" },
  { kinase := "HIPK2", pattern := hipk2Pat, specificity := mkRat 80 100,
    description := "S/T-P-X-K" },
  { kinase := "BUB1", pattern := bub1Pat, specificity := mkRat 70 100,
    description := "S/T-P-X-R" },
  { kinase := "CK2", pattern := ck2Pat, specificity := mkRat 75 100,
    description := "S/T-!P-X(1-2)-[D/E](2-3)" },
  { kinase := "CK1", pattern := ck1Pat, specificity := mkRat 45 100,
    description := "[D/E](1-2)-X(1-2)-S/T | S/T-X(2-3)-S/T (acidophilic + primed)" },
  { kinase := "PLK1", pattern := plk1Pat, specificity := mkRat 75 100,
    description := "[D/E]-X-S/T-F" },
  { kinase := "ATM&ATR", pattern := atmPat, specificity := mkRat 55 100,
    description := "S/T-Q (broad consensus; DNA-PK is more specific)" },
  { kinase := "DNA-PK", pattern := dnapkPat, specificity := mkRat 80 100,
    description := "S/T-Q-[D/E]" },
  { kinase := "IKK", pattern := ikkPat, specificity := mkRat 80 100,
    description := "[D/E]-X(1-2)-S-G-X-S" },
  { kinase := "CaMK2", pattern := camk2Pat, specificity := mkRat 55 100,
    description := "[R/K]-X-X-S/T-F? (F optional)" },
  { kinase := "Aurora A", pattern := auroraAPat, specificity := mkRat 65 100,
    description := "[R/K]-X-S/T-F" },
  { kinase := "Aurora B", pattern := auroraBPat, specificity := mkRat 75 100,
    description := "[R/K]-R-X-S/T-F" },
  { kinase := "Chk1", pattern := chk1Pat, specificity := mkRat 65 100,
    description := "F-R-X-X-S/T" },
  { kinase := "Chk2", pattern := chk2Pat, specificity := mkRat 65 100,
    description := "R-X-X-S/T-F" },
  { kinase := "NEK2", pattern := nek2Pat, specificity := mkRat 65 100,
    description := "F-R-X-X-S/T" },
  { kinase := "MK2", pattern := mk2Pat, specificity := mkRat 65 100,
    description := "[L/I/V/M]-X-R-X-S/T" }]

/-- Association-list lookup mirroring `entry.kinase in hits` /
`hits[entry.kinase]` on the Python dict (insertion-ordered). -/
def lookupHit (k : String) : List (String × ℚ) → Option ℚ
  | [] => none
  | (k', v) :: rest => if k' = k then some v else lookupHit k rest

/-- In-place value update `hits[k] = v` for a key already present, keeping the
dict's insertion position. -/
def setHit (k : String) (v : ℚ) : List (String × ℚ) → List (String × ℚ)
  | [] => []
  | (k', v') :: rest => if k' = k then (k', v) :: rest else (k', v') :: setHit k v rest

/-- One iteration of the `for entry in MOTIF_DB` loop body of
`identify_kinases`: if the pattern is found in the fragment and the
specificity clears `min_confidence`, record the entry's specificity,
keeping only the highest score per kinase. -/
def stepHits (minc : ℚ) (frag : List Char) (hits : List (String × ℚ))
    (e : MotifEntry) : List (String × ℚ) :=
  if reSearch e.pattern frag then
    if minc ≤ e.specificity then
      match lookupHit e.kinase hits with
      | none => hits ++ [(e.kinase, e.specificity)]
      | some old => if old < e.specificity then setHit e.kinase e.specificity hits else hits
    else hits
  else hits

/-- The whole loop of `identify_kinases`, producing the `hits` dict as an
insertion-ordered association list. -/
def runHits (db : List MotifEntry) (frag : List Char) (minc : ℚ) :
    List (String × ℚ) :=
  db.foldl (stepHits minc frag) []

/-- `sorted(hits.items(), key=lambda x: -x[1])`: a stable sort by descending
confidence. -/
def rankHits (hits : List (String × ℚ)) : List (String × ℚ) :=
  hits.insertionSort (fun a b => b.2 ≤ a.2)

/-- `identify_kinases` from `motif_db.py`.  `full_seq[start:stop]` is modelled
by `drop`/`take`; natural subtraction makes `index - WINDOW_HALF` equal to
Python's `max(0, index - WINDOW_HALF)`. -/
def identify_kinases (full_seq : List Char) (index : Nat)
    (min_confidence : ℚ := 0) : List (String × ℚ) :=
  let start := index - WINDOW_HALF
  let stop := min full_seq.length (index + WINDOW_HALF + 1)
  let fragment := (full_seq.drop start).take (stop - start)
  rankHits (runHits MOTIF_DB fragment min_confidence)

/-- The matching window of `identify_kinases`:
`full_sequence[max(0, site_index-7) : min(len, site_index+7+1)]`. -/
def windowOf (s : List Char) (i : Nat) : List Char :=
  (s.drop (i - WINDOW_HALF)).take (min s.length (i + WINDOW_HALF + 1) - (i - WINDOW_HALF))

example : reSearch pkaPat ("MARKRRASLPPKQ".data) = true := by decide

example : identify_kinases ("MARKRRASLPPKQ".data) 7 0 =
    identify_kinases ("MARKRRASLPPKQ".data) 7 0 := rfl

/-- The loop body's guard: `entry.pattern.search(fragment)` succeeded and the
entry's specificity clears `min_confidence`, so the entry contributes a hit. -/
def qualifies (frag : List Char) (minc : ℚ) (e : MotifEntry) : Bool :=
  reSearch e.pattern frag && decide (minc ≤ e.specificity)

/-- The specificities of all database entries for kinase `k` whose pattern is
found in `frag` and whose specificity clears `minc` (that kinase's matching
patterns). -/
def candSpecs (db : List MotifEntry) (frag : List Char) (minc : ℚ)
    (k : String) : List ℚ :=
  (db.filter (fun e => qualifies frag minc e && e.kinase == k)).map (·.specificity)

/-- Declaration index of kinase `k` in the motif database. -/
def dbDeclIdx (db : List MotifEntry) (k : String) : Nat :=
  db.findIdx (fun e => e.kinase == k)

theorem lookupHit_eq_none_iff (k : String) (hits : List (String × ℚ)) :
    lookupHit k hits = none ↔ k ∉ hits.map Prod.fst := by
  induction hits with
  | nil => simp [lookupHit]
  | cons p rest ih =>
    obtain ⟨k', v⟩ := p
    by_cases h : k' = k
    · subst h
      simp [lookupHit]
    · simp only [lookupHit, h, if_false, List.map_cons, List.mem_cons, ih]
      constructor
      · intro hnot hor
        rcases hor with hor | hor
        · exact h hor.symm
        · exact hnot hor
      · intro hnot hm
        exact hnot (Or.inr hm)

theorem lookupHit_append_right (k : String) (h1 h2 : List (String × ℚ))
    (h : lookupHit k h1 = none) : lookupHit k (h1 ++ h2) = lookupHit k h2 := by
  induction h1 with
  | nil => rfl
  | cons p rest ih =>
    obtain ⟨k', v⟩ := p
    by_cases hk : k' = k
    · simp [lookupHit, hk] at h
    · rw [List.cons_append]
      show (if k' = k then some v else lookupHit k (rest ++ h2)) = lookupHit k h2
      rw [if_neg hk]
      have h' : lookupHit k rest = none := by
        have : (if k' = k then some v else lookupHit k rest) = none := h
        rwa [if_neg hk] at this
      exact ih h'

theorem stepHits_of_not_qualifies {frag : List Char} {minc : ℚ} {e : MotifEntry}
    (hits : List (String × ℚ)) (h : qualifies frag minc e = false) :
    stepHits minc frag hits e = hits := by
  by_cases h1 : reSearch e.pattern frag = true
  · by_cases h2 : minc ≤ e.specificity
    · exfalso
      have : qualifies frag minc e = true := by simp [qualifies, h1, h2]
      rw [this] at h
      cases h
    · unfold stepHits
      simp [h1, h2]
  · unfold stepHits
    simp [h1]

theorem stepHits_of_qualifies_new {frag : List Char} {minc : ℚ} {e : MotifEntry}
    (hits : List (String × ℚ)) (h : qualifies frag minc e = true)
    (hnew : lookupHit e.kinase hits = none) :
    stepHits minc frag hits e = hits ++ [(e.kinase, e.specificity)] := by
  have h' : reSearch e.pattern frag = true ∧ minc ≤ e.specificity := by
    simpa [qualifies] using h
  unfold stepHits
  simp [h'.1, h'.2, hnew]

theorem foldl_stepHits_of_disjoint (frag : List Char) (minc : ℚ) :
    ∀ (db : List MotifEntry) (hits : List (String × ℚ)),
    (db.map MotifEntry.kinase).Nodup →
    (∀ e ∈ db, lookupHit e.kinase hits = none) →
    db.foldl (stepHits minc frag) hits
      = hits ++ (db.filter (qualifies frag minc)).map (fun e => (e.kinase, e.specificity))
  | [], hits, _, _ => by simp
  | e :: db, hits, hnd, hdisj => by
    have hndtail : (db.map MotifEntry.kinase).Nodup := (List.nodup_cons.mp hnd).2
    have hhead : e.kinase ∉ db.map MotifEntry.kinase := (List.nodup_cons.mp hnd).1
    by_cases hq : qualifies frag minc e = true
    · have hstep : stepHits minc frag hits e = hits ++ [(e.kinase, e.specificity)] :=
        stepHits_of_qualifies_new hits hq (hdisj e (List.mem_cons_self e db))
      have hdisj' : ∀ e' ∈ db, lookupHit e'.kinase (hits ++ [(e.kinase, e.specificity)]) = none := by
        intro e' he'
        have hne : e'.kinase ≠ e.kinase := by
          intro hcontra
          exact hhead (hcontra ▸ List.mem_map_of_mem MotifEntry.kinase he')
        rw [lookupHit_append_right _ _ _ (hdisj e' (List.mem_cons_of_mem e he'))]
        simp [lookupHit, hne.symm]
      calc (e :: db).foldl (stepHits minc frag) hits
          = db.foldl (stepHits minc frag) (hits ++ [(e.kinase, e.specificity)]) := by
            rw [List.foldl_cons, hstep]
        _ = hits ++ [(e.kinase, e.specificity)]
              ++ (db.filter (qualifies frag minc)).map (fun e => (e.kinase, e.specificity)) :=
            foldl_stepHits_of_disjoint frag minc db _ hndtail hdisj'
        _ = hits ++ ((e :: db).filter (qualifies frag minc)).map (fun e => (e.kinase, e.specificity)) := by
            rw [List.filter_cons_of_pos hq]
            simp
    · have hstep : stepHits minc frag hits e = hits :=
        stepHits_of_not_qualifies hits (Bool.not_eq_true _ ▸ hq)
      have hdisj' : ∀ e' ∈ db, lookupHit e'.kinase hits = none := fun e' he' =>
        hdisj e' (List.mem_cons_of_mem e he')
      rw [List.foldl_cons, hstep,
        foldl_stepHits_of_disjoint frag minc db hits hndtail hdisj',
        List.filter_cons_of_neg (by simpa using hq)]

theorem runHits_eq_filter_map (db : List MotifEntry) (frag : List Char) (minc : ℚ)
    (hnd : (db.map MotifEntry.kinase).Nodup) :
    runHits db frag minc
      = (db.filter (qualifies frag minc)).map (fun e => (e.kinase, e.specificity)) := by
  have := foldl_stepHits_of_disjoint frag minc db [] hnd (fun e _ => rfl)
  simpa [runHits] using this

theorem findIdx_kinase_getElem (db : List MotifEntry)
    (hnd : (db.map MotifEntry.kinase).Nodup) (i : Nat) (hi : i < db.length) :
    db.findIdx (fun e => e.kinase == (db[i]).kinase) = i := by
  rw [List.findIdx_eq hi]
  constructor
  · simp
  · intro j hji
    apply Bool.eq_false_iff.mpr
    intro hcontra
    have hj : j < db.length := Nat.lt_trans hji hi
    have heq : db[j].kinase = db[i].kinase := by simpa using hcontra
    have hinj := List.nodup_iff_injective_getElem.mp hnd
    have : (⟨j, by simpa using hj⟩ : Fin (db.map MotifEntry.kinase).length)
        = ⟨i, by simpa using hi⟩ := by
      apply hinj
      simp [heq]
    have : j = i := by simpa using congrArg Fin.val this
    omega

theorem pairwise_declIdx_of_nodup (db : List MotifEntry)
    (hnd : (db.map MotifEntry.kinase).Nodup) :
    db.Pairwise (fun e1 e2 => dbDeclIdx db e1.kinase < dbDeclIdx db e2.kinase) := by
  rw [List.pairwise_iff_getElem]
  intro i j hi hj hij
  unfold dbDeclIdx
  rw [findIdx_kinase_getElem db hnd i hi, findIdx_kinase_getElem db hnd j hj]
  exact hij

theorem pair_sublist_of_mem_of_ne {α : Type} {l : List α} {a b : α}
    (ha : a ∈ l) (hb : b ∈ l) (hne : a ≠ b) :
    [a, b].Sublist l ∨ [b, a].Sublist l := by
  induction l with
  | nil => cases ha
  | cons c t ih =>
    rcases List.mem_cons.mp ha with rfl | hat
    · have hbt : b ∈ t := by
        rcases List.mem_cons.mp hb with rfl | hbt
        · exact absurd rfl hne
        · exact hbt
      exact Or.inl (List.Sublist.cons₂ a (List.singleton_sublist.mpr hbt))
    · rcases List.mem_cons.mp hb with rfl | hbt
      · exact Or.inr (List.Sublist.cons₂ b (List.singleton_sublist.mpr hat))
      · rcases ih hat hbt with h | h
        · exact Or.inl (h.cons c)
        · exact Or.inr (h.cons c)

theorem exists_getElem_pair_of_sublist {α : Type} {l : List α} {a b : α}
    (h : [a, b].Sublist l) :
    ∃ i j, ∃ (hi : i < l.length) (hj : j < l.length),
      i < j ∧ l[i] = a ∧ l[j] = b := by
  induction l with
  | nil => simp at h
  | cons c t ih =>
    cases h with
    | cons _ h' =>
      obtain ⟨i, j, hi, hj, hij, hia, hjb⟩ := ih h'
      exact ⟨i + 1, j + 1, by simpa using hi, by simpa using hj,
        by omega, by simpa using hia, by simpa using hjb⟩
    | cons₂ _ h' =>
      have hbt : b ∈ t := List.singleton_sublist.mp h'
      obtain ⟨j, hj, hjb⟩ := List.getElem_of_mem hbt
      exact ⟨0, j + 1, by simp, by simpa using hj, by omega, rfl, by simpa using hjb⟩

theorem mem_rankHits (p : String × ℚ) (hits : List (String × ℚ)) :
    p ∈ rankHits hits ↔ p ∈ hits := List.mem_insertionSort _

theorem rankHits_perm (hits : List (String × ℚ)) : List.Perm (rankHits hits) hits :=
  List.perm_insertionSort _ _

theorem rankHits_sorted (hits : List (String × ℚ)) :
    (rankHits hits).Pairwise (fun a b : String × ℚ => b.2 ≤ a.2) := by
  haveI h1 : IsTotal (String × ℚ) (fun a b : String × ℚ => b.2 ≤ a.2) :=
    ⟨fun a b => le_total b.2 a.2⟩
  haveI h2 : IsTrans (String × ℚ) (fun a b : String × ℚ => b.2 ≤ a.2) :=
    ⟨fun a b c hab hbc => le_trans hbc hab⟩
  exact List.sorted_insertionSort _ hits

/-- C1: for every sequence, site index and `min_confidence`, the list returned
by `identify_kinases` (1) names each kinase at most once, (2) pairs each named
kinase with the highest specificity among that kinase's matching patterns that
clear the threshold (membership in `candSpecs` plus maximality — so never a sum
or average), (3) is sorted in descending order of confidence with ties broken
by the motif database's declaration order, and (4) is deterministic: a second
call with identical inputs returns the identical list (the function is pure,
so the two calls are one value). -/
theorem identify_kinases_ranked_dedup (s : List Char) (i : Nat) (m : ℚ) :
    (((identify_kinases s i m).map Prod.fst).Nodup)
    ∧ (∀ k v, (k, v) ∈ identify_kinases s i m →
        v ∈ candSpecs MOTIF_DB (windowOf s i) m k
          ∧ ∀ u ∈ candSpecs MOTIF_DB (windowOf s i) m k, u ≤ v)
    ∧ (identify_kinases s i m).Pairwise (fun a b =>
        b.2 < a.2 ∨ (a.2 = b.2 ∧ dbDeclIdx MOTIF_DB a.1 < dbDeclIdx MOTIF_DB b.1))
    ∧ identify_kinases s i m = identify_kinases s i m := by
  have hnd : (MOTIF_DB.map MotifEntry.kinase).Nodup := by decide
  have hident : identify_kinases s i m = rankHits (runHits MOTIF_DB (windowOf s i) m) := rfl
  set frag := windowOf s i with hfragdef
  set hits := runHits MOTIF_DB frag m with hhitsdef
  have hrun : hits = (MOTIF_DB.filter (qualifies frag m)).map (fun e => (e.kinase, e.specificity)) :=
    runHits_eq_filter_map _ _ _ hnd
  have hkeys : hits.map Prod.fst = (MOTIF_DB.filter (qualifies frag m)).map MotifEntry.kinase := by
    rw [hrun, List.map_map]
    rfl
  have hkeysnd : (hits.map Prod.fst).Nodup := by
    rw [hkeys]
    exact List.Nodup.sublist ((MOTIF_DB.filter_sublist).map MotifEntry.kinase) hnd
  have hperm : List.Perm (identify_kinases s i m) hits := by
    rw [hident]
    exact rankHits_perm hits
  have houtkeys : ((identify_kinases s i m).map Prod.fst).Nodup :=
    ((hperm.map Prod.fst).nodup_iff).mpr hkeysnd
  have hmem : ∀ p : String × ℚ, p ∈ identify_kinases s i m ↔ p ∈ hits := by
    intro p
    rw [hident]
    exact mem_rankHits p hits
  have hpw : hits.Pairwise (fun a b : String × ℚ =>
      dbDeclIdx MOTIF_DB a.1 < dbDeclIdx MOTIF_DB b.1) := by
    rw [hrun, List.pairwise_map]
    exact (pairwise_declIdx_of_nodup MOTIF_DB hnd).filter _
  have hsorted : (identify_kinases s i m).Pairwise (fun a b : String × ℚ => b.2 ≤ a.2) := by
    rw [hident]
    exact rankHits_sorted hits
  refine ⟨houtkeys, ?_, ?_, rfl⟩
  · intro k v hkv
    have hkv' : (k, v) ∈ hits := (hmem _).mp hkv
    rw [hrun] at hkv'
    obtain ⟨e, he, hpair⟩ := List.mem_map.mp hkv'
    obtain ⟨hedb, heq⟩ := List.mem_filter.mp he
    have hek : e.kinase = k := congrArg Prod.fst hpair
    have hev : e.specificity = v := congrArg Prod.snd hpair
    constructor
    · exact hev ▸ List.mem_map.mpr
        ⟨e, List.mem_filter.mpr ⟨hedb, by simp [heq, hek]⟩, rfl⟩
    · intro u hu
      obtain ⟨e', he', heu⟩ := List.mem_map.mp hu
      obtain ⟨he'db, hcond⟩ := List.mem_filter.mp he'
      have hcond' : qualifies frag m e' = true ∧ e'.kinase = k := by
        simpa using hcond
      have hsame : e' = e :=
        List.inj_on_of_nodup_map hnd he'db hedb (by rw [hcond'.2, hek])
      rw [← heu, hsame, hev]
  · rw [List.pairwise_iff_getElem]
    intro i1 j1 hi1 hj1 hij1
    have hle : (identify_kinases s i m)[j1].2 ≤ (identify_kinases s i m)[i1].2 :=
      (List.pairwise_iff_getElem.mp hsorted) i1 j1 hi1 hj1 hij1
    rcases lt_or_eq_of_le hle with hlt | heq2
    · exact Or.inl hlt
    · refine Or.inr ⟨heq2.symm, ?_⟩
      have hinj := List.nodup_iff_injective_getElem.mp houtkeys
      have hkne : (identify_kinases s i m)[i1].1 ≠ (identify_kinases s i m)[j1].1 := by
        intro hcontra
        have hfin : (⟨i1, by simpa using hi1⟩ : Fin ((identify_kinases s i m).map Prod.fst).length)
            = ⟨j1, by simpa using hj1⟩ := by
          apply hinj
          simpa using hcontra
        have : i1 = j1 := by simpa using congrArg Fin.val hfin
        omega
      have hpne : (identify_kinases s i m)[i1] ≠ (identify_kinases s i m)[j1] :=
        fun hc => hkne (congrArg Prod.fst hc)
      have hmi : (identify_kinases s i m)[i1] ∈ hits :=
        (hmem _).mp (List.getElem_mem hi1)
      have hmj : (identify_kinases s i m)[j1] ∈ hits :=
        (hmem _).mp (List.getElem_mem hj1)
      rcases pair_sublist_of_mem_of_ne hmi hmj hpne with hsub | hsub
      · have hp2 : List.Pairwise
            (fun a b : String × ℚ => dbDeclIdx MOTIF_DB a.1 < dbDeclIdx MOTIF_DB b.1)
            [(identify_kinases s i m)[i1], (identify_kinases s i m)[j1]] :=
          List.Pairwise.sublist hsub hpw
        have hp3 := List.pairwise_pair.mp hp2
        exact hp3
      · exfalso
        have hr : (identify_kinases s i m)[i1].2 ≤ (identify_kinases s i m)[j1].2 :=
          le_of_eq heq2.symm
        have hsubout : [(identify_kinases s i m)[j1], (identify_kinases s i m)[i1]].Sublist
            (identify_kinases s i m) :=
          List.pair_sublist_insertionSort hr hsub
        obtain ⟨p, q, hp, hq, hpq, hpe, hqe⟩ := exists_getElem_pair_of_sublist hsubout
        have hpj : p = j1 := by
          have hfin : (⟨p, by simpa using hp⟩ : Fin ((identify_kinases s i m).map Prod.fst).length)
              = ⟨j1, by simpa using hj1⟩ := by
            apply hinj
            simpa using congrArg Prod.fst hpe
          simpa using congrArg Fin.val hfin
        have hqi : q = i1 := by
          have hfin : (⟨q, by simpa using hq⟩ : Fin ((identify_kinases s i m).map Prod.fst).length)
              = ⟨i1, by simpa using hi1⟩ := by
            apply hinj
            simpa using congrArg Prod.fst hqe
          simpa using congrArg Fin.val hfin
        omega

/-- The sequence of the spec's PKA scenario (`"MARKRRASLPPKQ"`). -/
def exampleSeq : List Char := "MARKRRASLPPKQ".data

/-- C4: for every in-range site index the matching window of
`identify_kinases` is exactly the slice
`full_sequence[max(0, site_index-7) : min(len, site_index+7+1)]`
(every window position `j` reads sequence position `start + j`, which is
strictly inside the sequence — nothing outside `[0, len)` is ever read), the
function is total (it cannot raise), and at the boundaries it still works on a
nonempty, possibly shorter clipped window. -/
theorem identify_kinases_window_safe (s : List Char) (i : Nat) (m : ℚ)
    (h : i < s.length) :
    (∀ j : Nat, j < (windowOf s i).length →
        (i - WINDOW_HALF) + j < s.length
          ∧ (windowOf s i)[j]? = s[(i - WINDOW_HALF) + j]?)
    ∧ (windowOf s i).length
        = min s.length (i + WINDOW_HALF + 1) - (i - WINDOW_HALF)
    ∧ identify_kinases s i m = rankHits (runHits MOTIF_DB (windowOf s i) m)
    ∧ windowOf s i ≠ [] := by
  have hlen : (windowOf s i).length
      = min s.length (i + WINDOW_HALF + 1) - (i - WINDOW_HALF) := by
    simp only [windowOf, List.length_take, List.length_drop]
    omega
  refine ⟨?_, hlen, rfl, ?_⟩
  · intro j hj
    rw [hlen] at hj
    simp only [show WINDOW_HALF = 7 from rfl] at hj ⊢
    constructor
    · omega
    · unfold windowOf
      simp only [show WINDOW_HALF = 7 from rfl]
      rw [List.getElem?_take_of_lt (by omega), List.getElem?_drop]
  · have : 0 < (windowOf s i).length := by
      rw [hlen]
      unfold WINDOW_HALF
      omega
    exact List.ne_nil_of_length_pos this

/-- Witness for C4: the window bounds hold at both termini of a concrete
13-residue sequence (site index 0 and site index 12). -/
theorem identify_kinases_window_safe_witness :
    windowOf exampleSeq 0 ≠ [] ∧ windowOf exampleSeq 12 ≠ [] :=
  ⟨(identify_kinases_window_safe exampleSeq 0 0 (by decide)).2.2.2,
   (identify_kinases_window_safe exampleSeq 12 0 (by decide)).2.2.2⟩

theorem stepHits_of_below_threshold {frag : List Char} {minc : ℚ} {e : MotifEntry}
    (hits : List (String × ℚ)) (h : ¬ minc ≤ e.specificity) :
    stepHits minc frag hits e = hits := by
  unfold stepHits
  by_cases h1 : reSearch e.pattern frag = true
  · simp [h1, h]
  · simp [h1]

theorem runHits_of_all_below (db : List MotifEntry) (frag : List Char) (minc : ℚ)
    (h : ∀ e ∈ db, ¬ minc ≤ e.specificity) : runHits db frag minc = [] := by
  unfold runHits
  generalize hacc : ([] : List (String × ℚ)) = acc
  clear hacc
  induction db generalizing acc with
  | nil => rfl
  | cons e db ih =>
    rw [List.foldl_cons, stepHits_of_below_threshold acc (h e (List.mem_cons_self e db))]
    exact ih (fun e' he' => h e' (List.mem_cons_of_mem e he')) acc

/-- C8: every specificity stored in the motif database lies in `[0, 1]`, and
with `min_confidence = 1.1` (which exceeds every score) `identify_kinases`
returns the empty list for every sequence and site index. -/
theorem motif_db_specificity_bounds :
    (∀ v ∈ MOTIF_DB.map MotifEntry.specificity, 0 ≤ v ∧ v ≤ 1)
    ∧ ∀ (s : List Char) (i : Nat), identify_kinases s i (1.1 : ℚ) = [] := by
  have h11 : (1.1 : ℚ) = mkRat 11 10 := by
    rw [Rat.mkRat_eq_div]
    norm_num
  constructor
  · decide
  · intro s i
    have hlow : ∀ e ∈ MOTIF_DB, ¬ ((1.1 : ℚ) ≤ e.specificity) := by
      rw [h11]
      decide
    show rankHits (runHits MOTIF_DB _ (1.1 : ℚ)) = []
    rw [runHits_of_all_below _ _ _ hlow]
    rfl

/-- Witness for C8: the PKA score 0.60 lies in `[0, 1]`, and a concrete call
with threshold 1.1 returns the empty list. -/
theorem motif_db_specificity_bounds_witness :
    (0 ≤ mkRat 60 100 ∧ mkRat 60 100 ≤ 1)
    ∧ identify_kinases exampleSeq 7 (1.1 : ℚ) = [] :=
  ⟨motif_db_specificity_bounds.1 (mkRat 60 100) (by decide),
   motif_db_specificity_bounds.2 exampleSeq 7⟩

/-- C9: on the sequence `"MARKRRASLPPKQ"` with (0-based) site index 7 — the
`S` of `RRAS` — and `min_confidence = 0`, the result of `identify_kinases`
contains the pair `("PKA", 0.60)`: the PKA pattern matches `"RRAS"` inside the
boundary-clipped window. -/
theorem identify_kinases_scenario_pka :
    exampleSeq[7]? = some 'S'
    ∧ ("PKA", (0.60 : ℚ)) ∈ identify_kinases exampleSeq 7 0
    ∧ reSearch pkaPat ("RRAS".data) = true := by
  have h : (0.60 : ℚ) = mkRat 60 100 := by
    rw [Rat.mkRat_eq_div]
    norm_num
  refine ⟨by decide, ?_, by decide⟩
  rw [h]
  decide

/-- The characters removed by `_normalize_name_for_matching`'s regex
`[&\s\-_/]` (Python's `\s` over ASCII). -/
def isStrippedChar (c : Char) : Bool :=
  c = '&' || c = '-' || c = '_' || c = '/' || c = ' ' || c = '\t' || c = '\n'
    || c = '\r' || c = '\x0b' || c = '\x0c'

/-- `_normalize_name_for_matching` from `validation.py`: strip `& - _ /` and
whitespace, then uppercase. -/
def _normalize_name_for_matching (name : List Char) : List Char :=
  (name.filter (fun c => !isStrippedChar c)).map Char.toUpper

/-- `_kinase_names_match` from `validation.py`: exact equality of the two
normalised names. -/
def _kinase_names_match (pred actual : List Char) : Bool :=
  _normalize_name_for_matching pred == _normalize_name_for_matching actual

/-- Does `a` occur at the start of `b`? -/
def listLeads : List Char → List Char → Bool
  | [], _ => true
  | _ :: _, [] => false
  | x :: xs, y :: ys => x == y && listLeads xs ys

/-- Python's substring test `a in b`: `a` occurs contiguously inside `b`. -/
def occursIn (a : List Char) : List Char → Bool
  | [] => listLeads a []
  | c :: rest => listLeads a (c :: rest) || occursIn a rest

/-- `_MIN_MATCH_LEN` from `validation.py`. -/
def _MIN_MATCH_LEN : Nat := 7

/-- The containment judgment of `validate_predictions` for one reference
kinase: some reference window `s` satisfies
`(len(p_motif) >= _MIN_MATCH_LEN and p_motif in s) or
 (len(s) >= _MIN_MATCH_LEN and s in p_motif)`. -/
def motifFoundIn (p_motif : List Char) (ref_seqs : List (List Char)) : Bool :=
  ref_seqs.any (fun s =>
    (decide (_MIN_MATCH_LEN ≤ p_motif.length) && occursIn p_motif s)
    || (decide (_MIN_MATCH_LEN ≤ s.length) && occursIn s p_motif))

/-- The `found_kinases` list built by `validate_predictions`: the reference
kinases (in reference-dict insertion order) whose substrate set contains the
motif under the guarded containment test. -/
def found_kinases (ref : List (List Char × List (List Char)))
    (p_motif : List Char) : List (List Char) :=
  (ref.filter (fun p => motifFoundIn p_motif p.2)).map Prod.fst

/-- Python `str.split(",")` (keeps empty pieces). -/
def splitCommaAux : List Char → List Char → List (List Char)
  | [], acc => [acc.reverse]
  | c :: rest, acc =>
    if c = ',' then acc.reverse :: splitCommaAux rest []
    else splitCommaAux rest (c :: acc)

/-- Python `s.split(",")`. -/
def splitComma (l : List Char) : List (List Char) := splitCommaAux l []

/-- Python `str` whitespace (ASCII), as stripped by `str.strip()`. -/
def isPySpace (c : Char) : Bool :=
  c = ' ' || c = '\t' || c = '\n' || c = '\r' || c = '\x0b' || c = '\x0c'

/-- Python `s.strip()`. -/
def pyStrip (l : List Char) : List Char :=
  ((l.dropWhile isPySpace).reverse.dropWhile isPySpace).reverse

/-- `[p.strip() for p in raw.split(",") if p.strip()]` from
`validate_predictions`. -/
def parsePreds (s : List Char) : List (List Char) :=
  ((splitComma s).map pyStrip).filter (fun t => !t.isEmpty)

/-- One input row of `validate_predictions` (`Motif` and `Kinase Name`
columns; `none` models a NaN cell, turned into `""` by the code). -/
structure PRow where
  motif : List Char
  kinaseName : Option (List Char)
deriving DecidableEq

/-- The three columns appended per row by `validate_predictions`. -/
structure Annot where
  in_psp : Bool
  correct : Bool
  actualKinases : List (List Char)
deriving DecidableEq

/-- The per-row loop body of `validate_predictions`: uppercase the motif,
split the predicted kinases, collect `found_kinases`, set `In_PSP`, and set
`Correct` iff some prediction name-matches some found kinase (the loop only
runs when `found_kinases` is nonempty). -/
def annotateRow (ref : List (List Char × List (List Char))) (row : PRow) : Annot :=
  { in_psp := !(found_kinases ref (row.motif.map Char.toUpper)).isEmpty,
    correct := !(found_kinases ref (row.motif.map Char.toUpper)).isEmpty
      && (parsePreds (match row.kinaseName with | some s => s | none => [])).any
           (fun pred => (found_kinases ref (row.motif.map Char.toUpper)).any
             (fun act => _kinase_names_match pred act)),
    actualKinases := found_kinases ref (row.motif.map Char.toUpper) }

/-- The accuracy summary dict of `validate_predictions`. -/
structure AccSummary where
  total_motifs : Nat
  matched_psp : Nat
  correct : Nat
  acc_percent : ℚ
deriving DecidableEq

/-- `validate_predictions` from `validation.py`, with the reference data
passed in already loaded (the Excel `load_reference_data` step is I/O at the
component boundary). -/
def validate_predictions (ref : List (List Char × List (List Char)))
    (rows : List PRow) : List Annot × AccSummary :=
  let annots := rows.map (annotateRow ref)
  let valid := annots.filter (·.in_psp)
  let n_correct := (valid.filter (·.correct)).length
  let acc : ℚ := if valid.length ≠ 0 then (n_correct : ℚ) / valid.length * 100 else 0
  (annots,
   { total_motifs := rows.length, matched_psp := valid.length,
     correct := n_correct, acc_percent := acc })

theorem listLeads_length {a b : List Char} (h : listLeads a b = true) :
    a.length ≤ b.length := by
  induction a generalizing b with
  | nil => simp
  | cons x xs ih =>
    cases b with
    | nil => simp [listLeads] at h
    | cons y ys =>
      have h' : x = y ∧ listLeads xs ys = true := by simpa [listLeads] using h
      simpa using ih h'.2

theorem occursIn_length {a b : List Char} (h : occursIn a b = true) :
    a.length ≤ b.length := by
  induction b with
  | nil => exact listLeads_length h
  | cons c rest ih =>
    rcases Bool.or_eq_true_iff.mp (by simpa [occursIn] using h) with h' | h'
    · exact listLeads_length h'
    · exact Nat.le_trans (ih h') (by simp)

theorem foundCond_iff (motif s : List Char) :
    ((decide (_MIN_MATCH_LEN ≤ motif.length) && occursIn motif s)
      || (decide (_MIN_MATCH_LEN ≤ s.length) && occursIn s motif)) = true
    ↔ ((occursIn motif s = true ∨ occursIn s motif = true)
        ∧ 7 ≤ min motif.length s.length) := by
  simp only [Bool.or_eq_true, Bool.and_eq_true, decide_eq_true_eq, _MIN_MATCH_LEN]
  constructor
  · rintro (⟨hl, ho⟩ | ⟨hl, ho⟩)
    · have hlen := occursIn_length ho
      exact ⟨Or.inl ho, by omega⟩
    · have hlen := occursIn_length ho
      exact ⟨Or.inr ho, by omega⟩
  · rintro ⟨ho | ho, hmin⟩
    · exact Or.inl ⟨by omega, ho⟩
    · exact Or.inr ⟨by omega, ho⟩

/-- C2: in `validate_predictions` a motif is judged found under a reference
kinase iff the motif is a substring of some reference window or some reference
window is a substring of the motif, and — since containment bounds the shorter
length by the longer — in either direction only when the shorter of the two
compared strings has length at least 7.  In particular a 4-character motif is
never judged found against a 4-character reference window. -/
theorem validation_found_iff (ref : List (List Char × List (List Char)))
    (motif k : List Char) :
    (k ∈ found_kinases ref motif ↔ ∃ seqs, (k, seqs) ∈ ref ∧ ∃ s ∈ seqs,
        ((occursIn motif s = true ∨ occursIn s motif = true)
          ∧ 7 ≤ min motif.length s.length))
    ∧ (∀ m4 w4 : List Char, m4.length = 4 → w4.length = 4 →
        motifFoundIn m4 [w4] = false) := by
  constructor
  · unfold found_kinases
    rw [List.mem_map]
    constructor
    · rintro ⟨p, hp, rfl⟩
      obtain ⟨hpref, hcond⟩ := List.mem_filter.mp hp
      refine ⟨p.2, hpref, ?_⟩
      obtain ⟨s, hs, hcs⟩ := List.any_eq_true.mp hcond
      exact ⟨s, hs, (foundCond_iff motif s).mp hcs⟩
    · rintro ⟨seqs, href, s, hs, hcond⟩
      refine ⟨(k, seqs), List.mem_filter.mpr ⟨href, ?_⟩, rfl⟩
      simp only [motifFoundIn, List.any_eq_true]
      exact ⟨s, hs, (foundCond_iff motif s).mpr hcond⟩
  · intro m4 w4 h4 hw4
    simp [motifFoundIn, _MIN_MATCH_LEN, h4, hw4]

/-- Witness for C2: with a one-kinase reference whose single window is
`"RRASLABCD"` (length 9), the 9-character motif `"RRASLABCD"` is found under
kinase `"PKA"`; and a 4-character motif is not found against an identical
4-character window. -/
theorem validation_found_iff_witness :
    ("PKA".data) ∈ found_kinases [(("PKA".data), [("RRASLABCD".data)])] ("RRASLABCD".data)
    ∧ motifFoundIn ("ABCD".data) [("ABCD".data)] = false := by
  constructor
  · exact (validation_found_iff [(("PKA".data), [("RRASLABCD".data)])]
      ("RRASLABCD".data) ("PKA".data)).1.mpr
      ⟨[("RRASLABCD".data)], by decide, ("RRASLABCD".data), by decide, by decide⟩
  · exact (validation_found_iff [] [] []).2 ("ABCD".data) ("ABCD".data) (by decide) (by decide)

/-- C3: kinase-name matching is exact equality after normalization (strip
`&`, whitespace, `-`, `_`, `/` and uppercase); no substring-based equating
occurs: `"CK1"` vs `"CK12"` is false, `"p38&MAPK"` vs `"p38 mapk"` is true,
`"p38&MAPK"` vs `"p38"` is false. -/
theorem kinase_name_matching_exact :
    (∀ pred actual : List Char,
        _kinase_names_match pred actual = true
          ↔ _normalize_name_for_matching pred = _normalize_name_for_matching actual)
    ∧ _kinase_names_match ("CK1".data) ("CK12".data) = false
    ∧ _kinase_names_match ("p38&MAPK".data) ("p38 mapk".data) = true
    ∧ _kinase_names_match ("p38&MAPK".data) ("p38".data) = false := by
  refine ⟨?_, by decide, by decide, by decide⟩
  intro pred actual
  simp [_kinase_names_match]

/-- C10: every record annotated by `validate_predictions` satisfies
`Correct → In_PSP` (a prediction is never marked correct when its motif
matched no reference kinase), and in the accuracy summary the count of
correct rows never exceeds the count of reference-matched rows. -/
theorem validate_correct_implies_matched (ref : List (List Char × List (List Char)))
    (rows : List PRow) :
    (∀ a ∈ (validate_predictions ref rows).1, a.correct = true → a.in_psp = true)
    ∧ (validate_predictions ref rows).2.correct
        ≤ (validate_predictions ref rows).2.matched_psp := by
  constructor
  · intro a ha hc
    obtain ⟨row, hrow, rfl⟩ := List.mem_map.mp ha
    exact (Bool.and_eq_true_iff.mp hc).1
  · exact List.length_filter_le _ _

/-- Witness for C10: a concrete correctly-predicted row is `In_PSP`. -/
theorem validate_correct_implies_matched_witness :
    (annotateRow [(("PKA".data), [("RRASLABCD".data)])]
      { motif := "RRASLABCD".data, kinaseName := some ("PKA".data) }).in_psp = true :=
  (validate_correct_implies_matched [(("PKA".data), [("RRASLABCD".data)])]
      [{ motif := "RRASLABCD".data, kinaseName := some ("PKA".data) }]).1
    (annotateRow [(("PKA".data), [("RRASLABCD".data)])]
      { motif := "RRASLABCD".data, kinaseName := some ("PKA".data) })
    (by decide) (by decide)

/-- Python `re.split(r"[;,]", s)` (keeps empty pieces). -/
def splitSemiCommaAux : List Char → List Char → List (List Char)
  | [], acc => [acc.reverse]
  | c :: rest, acc =>
    if c = ',' ∨ c = ';' then acc.reverse :: splitSemiCommaAux rest []
    else splitSemiCommaAux rest (c :: acc)

/-- Python `re.split(r"[;,]", s)`. -/
def splitSemiComma (l : List Char) : List (List Char) := splitSemiCommaAux l []

/-- `_parse_field` from `validation.py`: split a comma/semicolon-separated
field into trimmed nonempty strings (`none`-valued NaN cells are handled at
the call sites, which drop them). -/
def _parse_field (s : List Char) : List (List Char) :=
  ((splitSemiComma s).map pyStrip).filter (fun t => !t.isEmpty)

/-- One row of the annotated table consumed by `calculate_f1_metrics`
(`Motif`, `Kinase Name`, `Actual_Kinases_in_PSP`; `none` models NaN). -/
structure VRow where
  motif : List Char
  kinaseName : Option (List Char)
  actualKinases : Option (List Char)
deriving DecidableEq

/-- First-occurrence deduplication (the distinct group keys of
`df.groupby("Motif")`; pandas iterates them sorted, but the three metric
accumulators are sums, so group order cannot affect the result). -/
def dedupFAux {α : Type} [DecidableEq α] (seen : List α) : List α → List α
  | [] => []
  | x :: xs => if x ∈ seen then dedupFAux seen xs else x :: dedupFAux (x :: seen) xs

/-- First-occurrence deduplication of a list. -/
def dedupF {α : Type} [DecidableEq α] (l : List α) : List α := dedupFAux [] l

/-- The rows of one motif group of `df.groupby("Motif")`. -/
def groupRows (rows : List VRow) (m : List Char) : List VRow :=
  rows.filter (fun r => r.motif == m)

/-- The group's actual-kinase set: `_parse_field` of the first non-NaN
`Actual_Kinases_in_PSP` value, normalised, as a set. -/
def groupActualSet (g : List VRow) : Finset (List Char) :=
  match (g.filterMap VRow.actualKinases).head? with
  | some s => ((_parse_field s).map _normalize_name_for_matching).toFinset
  | none => ∅

/-- The group's predicted-kinase set: every parsed, normalised `Kinase Name`
token of every non-NaN row of the group, as a set. -/
def groupPredSet (g : List VRow) : Finset (List Char) :=
  ((g.filterMap VRow.kinaseName).flatMap
    (fun item => (_parse_field item).map _normalize_name_for_matching)).toFinset

/-- The result dict of `calculate_f1_metrics`. -/
structure F1Metrics where
  precision : ℚ
  «recall» : ℚ
  f1_score : ℚ
  tp : Nat
  fp : Nat
  fn : Nat
deriving DecidableEq

/-- `calculate_f1_metrics` from `validation.py`: accumulate `tp`, `fp`, `fn`
over the motif groups, then compute micro-averaged precision, recall and F1
with zero denominators mapping to 0. -/
def calculate_f1_metrics (rows : List VRow) : F1Metrics :=
  let motifs := dedupF (rows.map VRow.motif)
  let t := motifs.foldl (fun acc m =>
      (acc.1 + ((groupPredSet (groupRows rows m)) ∩ (groupActualSet (groupRows rows m))).card,
       acc.2.1 + ((groupPredSet (groupRows rows m)) \ (groupActualSet (groupRows rows m))).card,
       acc.2.2 + ((groupActualSet (groupRows rows m)) \ (groupPredSet (groupRows rows m))).card))
    ((0, 0, 0) : Nat × Nat × Nat)
  let precision : ℚ := if 0 < t.1 + t.2.1 then (t.1 : ℚ) / ((t.1 : ℚ) + (t.2.1 : ℚ)) else 0
  let recallV : ℚ := if 0 < t.1 + t.2.2 then (t.1 : ℚ) / ((t.1 : ℚ) + (t.2.2 : ℚ)) else 0
  let f1 : ℚ := if 0 < precision + recallV then 2 * precision * recallV / (precision + recallV) else 0
  { precision := precision, «recall» := recallV, f1_score := f1,
    tp := t.1, fp := t.2.1, fn := t.2.2 }

theorem foldl_triple_sum {α : Type} (f g h : α → Nat) (l : List α) (a b c : Nat) :
    l.foldl (fun acc x => (acc.1 + f x, acc.2.1 + g x, acc.2.2 + h x)) (a, b, c)
      = (a + (l.map f).sum, b + (l.map g).sum, c + (l.map h).sum) := by
  induction l generalizing a b c with
  | nil => simp
  | cons x xs ih =>
    rw [List.foldl_cons, ih]
    simp only [List.map_cons, List.sum_cons, Prod.mk.injEq]
    exact ⟨by omega, by omega, by omega⟩

/-- The claim's scenario input: one motif group with predicted kinases
`{"PKA"}` and actual kinases `{"PKA", "CK2"}`. -/
def rowsScenario : List VRow :=
  [{ motif := "RRASL".data, kinaseName := some ("PKA".data),
     actualKinases := some ("PKA, CK2".data) }]

/-- C5: `calculate_f1_metrics` groups records by motif and micro-averages —
`tp`, `fp`, `fn` are the sums over the distinct motifs of
`|predicted ∩ actual|`, `|predicted − actual|`, `|actual − predicted|`;
precision is `tp/(tp+fp)`, recall is `tp/(tp+fn)`, F1 is `2PR/(P+R)`, each 0
when its denominator is 0; and on one motif group with predicted `{PKA}` and
actual `{PKA, CK2}` it yields `tp = 1`, `fp = 0`, `fn = 1`,
`precision = 1.0`, `recall = 1/2` (0.5) and `f1 = 2/3` (≈ 0.667). -/
theorem calculate_f1_metrics_spec :
    (∀ rows : List VRow,
      (calculate_f1_metrics rows).tp
          = ((dedupF (rows.map VRow.motif)).map (fun m =>
              ((groupPredSet (groupRows rows m)) ∩ (groupActualSet (groupRows rows m))).card)).sum
        ∧ (calculate_f1_metrics rows).fp
          = ((dedupF (rows.map VRow.motif)).map (fun m =>
              ((groupPredSet (groupRows rows m)) \ (groupActualSet (groupRows rows m))).card)).sum
        ∧ (calculate_f1_metrics rows).fn
          = ((dedupF (rows.map VRow.motif)).map (fun m =>
              ((groupActualSet (groupRows rows m)) \ (groupPredSet (groupRows rows m))).card)).sum
        ∧ (calculate_f1_metrics rows).precision
          = (if 0 < (calculate_f1_metrics rows).tp + (calculate_f1_metrics rows).fp
              then ((calculate_f1_metrics rows).tp : ℚ)
                / (((calculate_f1_metrics rows).tp : ℚ) + ((calculate_f1_metrics rows).fp : ℚ))
              else 0)
        ∧ (calculate_f1_metrics rows).recall
          = (if 0 < (calculate_f1_metrics rows).tp + (calculate_f1_metrics rows).fn
              then ((calculate_f1_metrics rows).tp : ℚ)
                / (((calculate_f1_metrics rows).tp : ℚ) + ((calculate_f1_metrics rows).fn : ℚ))
              else 0)
        ∧ (calculate_f1_metrics rows).f1_score
          = (if 0 < (calculate_f1_metrics rows).precision + (calculate_f1_metrics rows).recall
              then 2 * (calculate_f1_metrics rows).precision * (calculate_f1_metrics rows).recall
                / ((calculate_f1_metrics rows).precision + (calculate_f1_metrics rows).recall)
              else 0))
    ∧ ((calculate_f1_metrics rowsScenario).tp = 1
        ∧ (calculate_f1_metrics rowsScenario).fp = 0
        ∧ (calculate_f1_metrics rowsScenario).fn = 1
        ∧ (calculate_f1_metrics rowsScenario).precision = 1
        ∧ (calculate_f1_metrics rowsScenario).recall = 1/2
        ∧ (calculate_f1_metrics rowsScenario).f1_score = 2/3) := by
  have hgen : ∀ rows : List VRow,
      (calculate_f1_metrics rows).tp
          = ((dedupF (rows.map VRow.motif)).map (fun m =>
              ((groupPredSet (groupRows rows m)) ∩ (groupActualSet (groupRows rows m))).card)).sum
        ∧ (calculate_f1_metrics rows).fp
          = ((dedupF (rows.map VRow.motif)).map (fun m =>
              ((groupPredSet (groupRows rows m)) \ (groupActualSet (groupRows rows m))).card)).sum
        ∧ (calculate_f1_metrics rows).fn
          = ((dedupF (rows.map VRow.motif)).map (fun m =>
              ((groupActualSet (groupRows rows m)) \ (groupPredSet (groupRows rows m))).card)).sum
        ∧ (calculate_f1_metrics rows).precision
          = (if 0 < (calculate_f1_metrics rows).tp + (calculate_f1_metrics rows).fp
              then ((calculate_f1_metrics rows).tp : ℚ)
                / (((calculate_f1_metrics rows).tp : ℚ) + ((calculate_f1_metrics rows).fp : ℚ))
              else 0)
        ∧ (calculate_f1_metrics rows).recall
          = (if 0 < (calculate_f1_metrics rows).tp + (calculate_f1_metrics rows).fn
              then ((calculate_f1_metrics rows).tp : ℚ)
                / (((calculate_f1_metrics rows).tp : ℚ) + ((calculate_f1_metrics rows).fn : ℚ))
              else 0)
        ∧ (calculate_f1_metrics rows).f1_score
          = (if 0 < (calculate_f1_metrics rows).precision + (calculate_f1_metrics rows).recall
              then 2 * (calculate_f1_metrics rows).precision * (calculate_f1_metrics rows).recall
                / ((calculate_f1_metrics rows).precision + (calculate_f1_metrics rows).recall)
              else 0) := by
    intro rows
    have key := foldl_triple_sum
      (fun m => ((groupPredSet (groupRows rows m)) ∩ (groupActualSet (groupRows rows m))).card)
      (fun m => ((groupPredSet (groupRows rows m)) \ (groupActualSet (groupRows rows m))).card)
      (fun m => ((groupActualSet (groupRows rows m)) \ (groupPredSet (groupRows rows m))).card)
      (dedupF (rows.map VRow.motif)) 0 0 0
    refine ⟨?_, ?_, ?_, rfl, rfl, rfl⟩
    · simpa using congrArg Prod.fst key
    · simpa using congrArg (fun p => p.2.1) key
    · simpa using congrArg (fun p => p.2.2) key
  refine ⟨hgen, ?_⟩
  have htp : (calculate_f1_metrics rowsScenario).tp = 1 := by decide
  have hfp : (calculate_f1_metrics rowsScenario).fp = 0 := by decide
  have hfn : (calculate_f1_metrics rowsScenario).fn = 1 := by decide
  have hprec : (calculate_f1_metrics rowsScenario).precision = 1 := by
    rw [(hgen rowsScenario).2.2.2.1, htp, hfp]
    norm_num
  have hrec : (calculate_f1_metrics rowsScenario).recall = 1/2 := by
    rw [(hgen rowsScenario).2.2.2.2.1, htp, hfn]
    norm_num
  have hf1 : (calculate_f1_metrics rowsScenario).f1_score = 2/3 := by
    rw [(hgen rowsScenario).2.2.2.2.2, hprec, hrec]
    norm_num
  exact ⟨htp, hfp, hfn, hprec, hrec, hf1⟩

/-- One row of the table fed to `normalize_kinase_rows` (`Gene Name`,
`Motif`, `Kinase Name`, `Confidence`; cells are strings — the code's
`fillna("").astype(str)` turns NaN into `""`). -/
structure KRow where
  gene : List Char
  motif : List Char
  kinase : List Char
  conf : List Char
deriving DecidableEq

/-- A table with its schema: whether the `Kinase Name`, `Motif` and
`Confidence` columns are present, plus the rows. -/
structure KTable where
  hasKinase : Bool
  hasMotif : Bool
  hasConf : Bool
  rows : List KRow
deriving DecidableEq

/-- The failure taxonomy of `normalize_kinase_rows` (the `ValueError`
raised when required columns are missing). -/
inductive NormError where
  | MissingColumns
deriving DecidableEq

/-- The confidence alignment of `normalize_kinase_rows`: pad the confidence
token list with `""` up to the kinase count, then truncate to it. -/
def padTrunc (cs : List (List Char)) (n : Nat) : List (List Char) :=
  (cs ++ List.replicate (n - cs.length) []).take n

/-- One row's explosion when the `Confidence` column is present: split both
cells on commas, align positionally, and emit one row per kinase token. -/
def explodeRowConf (r : KRow) : List KRow :=
  ((splitComma r.kinase).zip (padTrunc (splitComma r.conf) (splitComma r.kinase).length)).map
    (fun p => { r with kinase := p.1, conf := p.2 })

/-- One row's explosion when the `Confidence` column is absent. -/
def explodeRowK (r : KRow) : List KRow :=
  (splitComma r.kinase).map (fun k => { r with kinase := k })

/-- `.str.strip()` applied to both the `Kinase Name` and `Confidence` cells. -/
def stripConfKinase (r : KRow) : KRow :=
  { r with kinase := pyStrip r.kinase, conf := pyStrip r.conf }

/-- `.str.strip()` applied to the `Kinase Name` cell only. -/
def stripKinase (r : KRow) : KRow := { r with kinase := pyStrip r.kinase }

/-- `drop_duplicates(subset=["Motif", "Kinase Name"])`: keep the first row
for each `(Motif, Kinase Name)` pair. -/
def dropDupMKAux (seen : List (List Char × List Char)) : List KRow → List KRow
  | [] => []
  | r :: rs =>
    if (r.motif, r.kinase) ∈ seen then dropDupMKAux seen rs
    else r :: dropDupMKAux ((r.motif, r.kinase) :: seen) rs

/-- `drop_duplicates(subset=["Motif", "Kinase Name"])` (keep first). -/
def dropDupMK (l : List KRow) : List KRow := dropDupMKAux [] l

/-- `normalize_kinase_rows` from `normalization.py`: check the required
columns, split comma-joined kinase (and aligned confidence) cells into one
row per kinase, strip the split cells, drop kinase tokens that are empty
after stripping, and drop duplicate `(Motif, Kinase Name)` pairs. -/
def normalize_kinase_rows (t : KTable) : Except NormError KTable :=
  if t.hasKinase && t.hasMotif then
    let exploded :=
      if t.hasConf then (t.rows.flatMap explodeRowConf).map stripConfKinase
      else (t.rows.flatMap explodeRowK).map stripKinase
    Except.ok { t with rows := dropDupMK (exploded.filter (fun r => !r.kinase.isEmpty)) }
  else Except.error NormError.MissingColumns

/-- C7: whenever the kinase-name column or the motif column is absent,
`normalize_kinase_rows` fails with the `MissingColumns` condition and no
(partial) result table is returned. -/
theorem normalize_kinase_rows_missing_columns (t : KTable)
    (h : t.hasKinase = false ∨ t.hasMotif = false) :
    normalize_kinase_rows t = Except.error NormError.MissingColumns
    ∧ ∀ t' : KTable, normalize_kinase_rows t ≠ Except.ok t' := by
  have hcond : (t.hasKinase && t.hasMotif) = false := by
    rcases h with h | h <;> simp [h]
  constructor
  · simp [normalize_kinase_rows, hcond]
  · intro t' hcontra
    simp [normalize_kinase_rows, hcond] at hcontra

/-- Witness for C7: a table whose motif column is absent is rejected. -/
theorem normalize_kinase_rows_missing_columns_witness :
    normalize_kinase_rows
        { hasKinase := true, hasMotif := false, hasConf := true, rows := [] }
      = Except.error NormError.MissingColumns :=
  (normalize_kinase_rows_missing_columns
    { hasKinase := true, hasMotif := false, hasConf := true, rows := [] }
    (Or.inr rfl)).1

theorem dropWhile_idem (p : Char → Bool) (l : List Char) :
    (l.dropWhile p).dropWhile p = l.dropWhile p := by
  induction l with
  | nil => rfl
  | cons x xs ih =>
    rw [List.dropWhile_cons]
    by_cases h : p x = true
    · simp only [h, if_true]
      exact ih
    · simp [List.dropWhile_cons, h]

theorem dropWhile_eq_self_of_append {p : Char → Bool} {y z w : List Char}
    (hy : y.dropWhile p = y) (hzw : y = z ++ w) : z.dropWhile p = z := by
  cases z with
  | nil => rfl
  | cons c zs =>
    have hc : p c = false := by
      by_contra hc'
      have hc2 : p c = true := by simpa using hc'
      subst hzw
      rw [List.cons_append, List.dropWhile_cons, if_pos hc2] at hy
      have hlen := (List.dropWhile_sublist (l := zs ++ w) p).length_le
      rw [hy] at hlen
      simp at hlen
    simp [List.dropWhile_cons, hc]

theorem pyStrip_idem (l : List Char) : pyStrip (pyStrip l) = pyStrip l := by
  have ha : (l.dropWhile isPySpace).dropWhile isPySpace = l.dropWhile isPySpace :=
    dropWhile_idem _ l
  have hb : ((l.dropWhile isPySpace).reverse.dropWhile isPySpace).dropWhile isPySpace
      = (l.dropWhile isPySpace).reverse.dropWhile isPySpace := dropWhile_idem _ _
  have ha2 : l.dropWhile isPySpace
      = ((l.dropWhile isPySpace).reverse.dropWhile isPySpace).reverse
        ++ ((l.dropWhile isPySpace).reverse.takeWhile isPySpace).reverse := by
    conv_lhs => rw [← List.reverse_reverse (l.dropWhile isPySpace),
      ← List.takeWhile_append_dropWhile (p := isPySpace)
        (l := (l.dropWhile isPySpace).reverse)]
    rw [List.reverse_append]
  have h1 : (((l.dropWhile isPySpace).reverse.dropWhile isPySpace).reverse).dropWhile isPySpace
      = ((l.dropWhile isPySpace).reverse.dropWhile isPySpace).reverse :=
    dropWhile_eq_self_of_append ha ha2
  show (((pyStrip l).dropWhile isPySpace).reverse.dropWhile isPySpace).reverse = pyStrip l
  have hps : pyStrip l = ((l.dropWhile isPySpace).reverse.dropWhile isPySpace).reverse := rfl
  rw [hps, h1, List.reverse_reverse, hb]

theorem splitCommaAux_of_no_comma :
    ∀ (l acc : List Char), ',' ∉ l → splitCommaAux l acc = [acc.reverse ++ l]
  | [], acc, _ => by simp [splitCommaAux]
  | c :: rest, acc, h => by
    have hc : ¬ c = ',' := by
      intro hcontra
      exact h (hcontra ▸ List.mem_cons_self c rest)
    have hrest : ',' ∉ rest := fun hm => h (List.mem_cons_of_mem c hm)
    rw [splitCommaAux, if_neg hc, splitCommaAux_of_no_comma rest (c :: acc) hrest]
    simp

theorem splitComma_of_no_comma (l : List Char) (h : ',' ∉ l) : splitComma l = [l] := by
  simpa [splitComma] using splitCommaAux_of_no_comma l [] h

theorem splitCommaAux_no_comma_mem :
    ∀ (l acc : List Char), ',' ∉ acc → ∀ x ∈ splitCommaAux l acc, ',' ∉ x
  | [], acc, hacc => by
    intro x hx
    have : x = acc.reverse := by simpa [splitCommaAux] using hx
    rw [this]
    simpa using hacc
  | c :: rest, acc, hacc => by
    intro x hx
    by_cases hc : c = ','
    · rw [splitCommaAux, if_pos hc] at hx
      rcases List.mem_cons.mp hx with rfl | hx'
      · simpa using hacc
      · exact splitCommaAux_no_comma_mem rest [] (by simp) x hx'
    · rw [splitCommaAux, if_neg hc] at hx
      have hacc' : ',' ∉ c :: acc := by
        intro hm
        rcases List.mem_cons.mp hm with hm' | hm'
        · exact hc hm'.symm
        · exact hacc hm'
      exact splitCommaAux_no_comma_mem rest (c :: acc) hacc' x hx

theorem mem_pyStrip {x : Char} {l : List Char} (h : x ∈ pyStrip l) : x ∈ l := by
  unfold pyStrip at h
  have h1 := List.mem_reverse.mp h
  have h2 := (List.dropWhile_sublist isPySpace).subset h1
  have h3 := List.mem_reverse.mp h2
  exact (List.dropWhile_sublist isPySpace).subset h3

theorem mem_padTrunc {x : List Char} {cs : List (List Char)} {n : Nat}
    (h : x ∈ padTrunc cs n) : x ∈ cs ∨ x = [] := by
  unfold padTrunc at h
  have h1 := List.mem_of_mem_take h
  rcases List.mem_append.mp h1 with h2 | h2
  · exact Or.inl h2
  · exact Or.inr (List.mem_replicate.mp h2).2

theorem mem_dropDupMKAux {seen : List (List Char × List Char)} {l : List KRow}
    {x : KRow} (h : x ∈ dropDupMKAux seen l) : x ∈ l := by
  induction l generalizing seen with
  | nil => simp [dropDupMKAux] at h
  | cons r rs ih =>
    rw [dropDupMKAux] at h
    by_cases hr : (r.motif, r.kinase) ∈ seen
    · rw [if_pos hr] at h
      exact List.mem_cons_of_mem r (ih h)
    · rw [if_neg hr] at h
      rcases List.mem_cons.mp h with h'' | h'
      · exact List.mem_cons.mpr (Or.inl h'')
      · exact List.mem_cons_of_mem r (ih h')

theorem dropDupMKAux_props (seen : List (List Char × List Char)) (l : List KRow) :
    (dropDupMKAux seen l).Pairwise (fun a b => (a.motif, a.kinase) ≠ (b.motif, b.kinase))
    ∧ ∀ x ∈ dropDupMKAux seen l, (x.motif, x.kinase) ∉ seen := by
  induction l generalizing seen with
  | nil => exact ⟨List.Pairwise.nil, by simp [dropDupMKAux]⟩
  | cons r rs ih =>
    rw [dropDupMKAux]
    by_cases hr : (r.motif, r.kinase) ∈ seen
    · rw [if_pos hr]
      exact ih seen
    · rw [if_neg hr]
      obtain ⟨ihpw, ihseen⟩ := ih ((r.motif, r.kinase) :: seen)
      constructor
      · refine List.Pairwise.cons ?_ ihpw
        intro b hb
        have := ihseen b hb
        intro hcontra
        exact this (hcontra ▸ List.mem_cons_self _ _)
      · intro x hx
        rcases List.mem_cons.mp hx with rfl | hx'
        · exact hr
        · exact fun hm => ihseen x hx' (List.mem_cons_of_mem _ hm)

theorem dropDupMKAux_eq_self (seen : List (List Char × List Char)) (l : List KRow)
    (hpw : l.Pairwise (fun a b => (a.motif, a.kinase) ≠ (b.motif, b.kinase)))
    (hs : ∀ x ∈ l, (x.motif, x.kinase) ∉ seen) : dropDupMKAux seen l = l := by
  induction l generalizing seen with
  | nil => rfl
  | cons r rs ih =>
    rw [dropDupMKAux, if_neg (hs r (List.mem_cons_self r rs))]
    obtain ⟨hhead, htail⟩ := List.pairwise_cons.mp hpw
    congr 1
    apply ih ((r.motif, r.kinase) :: seen) htail
    intro x hx hm
    rcases List.mem_cons.mp hm with hm' | hm'
    · exact hhead x hx hm'.symm
    · exact hs x (List.mem_cons_of_mem r hx) hm'

theorem flatMap_eq_self {α : Type} (l : List α) (f : α → List α)
    (h : ∀ x ∈ l, f x = [x]) : l.flatMap f = l := by
  induction l with
  | nil => rfl
  | cons x xs ih =>
    rw [List.flatMap_cons, h x (List.mem_cons_self x xs),
      ih (fun y hy => h y (List.mem_cons_of_mem x hy))]
    rfl

theorem explodeRowConf_fixed (r : KRow) (hk : ',' ∉ r.kinase) (hc : ',' ∉ r.conf) :
    explodeRowConf r = [r] := by
  unfold explodeRowConf
  rw [splitComma_of_no_comma _ hk, splitComma_of_no_comma _ hc]
  rfl

theorem explodeRowK_fixed (r : KRow) (hk : ',' ∉ r.kinase) : explodeRowK r = [r] := by
  unfold explodeRowK
  rw [splitComma_of_no_comma _ hk]
  rfl

theorem stripConfKinase_fixed (r : KRow) (hk : pyStrip r.kinase = r.kinase)
    (hc : pyStrip r.conf = r.conf) : stripConfKinase r = r := by
  unfold stripConfKinase
  rw [hk, hc]

theorem stripKinase_fixed (r : KRow) (hk : pyStrip r.kinase = r.kinase) :
    stripKinase r = r := by
  unfold stripKinase
  rw [hk]

theorem normOutConf_props (rows : List KRow) :
    ∀ r' ∈ dropDupMK (((rows.flatMap explodeRowConf).map stripConfKinase).filter
        (fun r => !r.kinase.isEmpty)),
      (',' ∉ r'.kinase ∧ pyStrip r'.kinase = r'.kinase ∧ r'.kinase ≠ [])
        ∧ (',' ∉ r'.conf ∧ pyStrip r'.conf = r'.conf) := by
  intro r' hr'
  have h2 := mem_dropDupMKAux hr'
  obtain ⟨hmem, hne⟩ := List.mem_filter.mp h2
  obtain ⟨r'', hr'', hstr⟩ := List.mem_map.mp hmem
  obtain ⟨r₀, hr₀, hex⟩ := List.mem_flatMap.mp hr''
  obtain ⟨p, hp, hrow⟩ := List.mem_map.mp hex
  have hz := List.of_mem_zip hp
  have hknc : ',' ∉ p.1 := splitCommaAux_no_comma_mem _ [] (by simp) p.1 hz.1
  have hcnc : ',' ∉ p.2 := by
    rcases mem_padTrunc hz.2 with hpc | hpc
    · exact splitCommaAux_no_comma_mem _ [] (by simp) p.2 hpc
    · rw [hpc]
      simp
  have hk' : r'.kinase = pyStrip p.1 := by
    rw [← hstr, ← hrow]
    rfl
  have hc' : r'.conf = pyStrip p.2 := by
    rw [← hstr, ← hrow]
    rfl
  refine ⟨⟨?_, ?_, ?_⟩, ?_, ?_⟩
  · rw [hk']
    exact fun hm => hknc (mem_pyStrip hm)
  · rw [hk']
    exact pyStrip_idem p.1
  · intro hcontra
    simp [hcontra] at hne
  · rw [hc']
    exact fun hm => hcnc (mem_pyStrip hm)
  · rw [hc']
    exact pyStrip_idem p.2

theorem normOutK_props (rows : List KRow) :
    ∀ r' ∈ dropDupMK (((rows.flatMap explodeRowK).map stripKinase).filter
        (fun r => !r.kinase.isEmpty)),
      ',' ∉ r'.kinase ∧ pyStrip r'.kinase = r'.kinase ∧ r'.kinase ≠ [] := by
  intro r' hr'
  have h2 := mem_dropDupMKAux hr'
  obtain ⟨hmem, hne⟩ := List.mem_filter.mp h2
  obtain ⟨r'', hr'', hstr⟩ := List.mem_map.mp hmem
  obtain ⟨r₀, hr₀, hex⟩ := List.mem_flatMap.mp hr''
  obtain ⟨k, hk, hrow⟩ := List.mem_map.mp hex
  have hknc : ',' ∉ k := splitCommaAux_no_comma_mem _ [] (by simp) k hk
  have hk' : r'.kinase = pyStrip k := by
    rw [← hstr, ← hrow]
    rfl
  refine ⟨?_, ?_, ?_⟩
  · rw [hk']
    exact fun hm => hknc (mem_pyStrip hm)
  · rw [hk']
    exact pyStrip_idem k
  · intro hcontra
    simp [hcontra] at hne

theorem map_eq_self {α : Type} (l : List α) (f : α → α) (h : ∀ x ∈ l, f x = x) :
    l.map f = l := by
  induction l with
  | nil => rfl
  | cons x xs ih =>
    rw [List.map_cons, h x (List.mem_cons_self x xs),
      ih (fun y hy => h y (List.mem_cons_of_mem x hy))]

/-- C6: `normalize_kinase_rows` is idempotent — if it maps `t` to `t'`, then
applying it to `t'` returns `t'` unchanged: no row of an already-normalised
table is split further (each kinase cell is a single comma-free stripped
token), no row is dropped (each kinase cell is nonempty), and no duplicate
`(Motif, Kinase Name)` pair exists to be removed. -/
theorem normalize_kinase_rows_idempotent (t t' : KTable)
    (h : normalize_kinase_rows t = Except.ok t') :
    normalize_kinase_rows t' = Except.ok t' := by
  by_cases hcols : (t.hasKinase && t.hasMotif) = true
  · by_cases hconf : t.hasConf = true
    · -- Confidence column present
      have hnt : normalize_kinase_rows t = Except.ok
          { hasKinase := t.hasKinase, hasMotif := t.hasMotif, hasConf := t.hasConf,
            rows := dropDupMK (((t.rows.flatMap explodeRowConf).map stripConfKinase).filter
              (fun r => !r.kinase.isEmpty)) } := by
        simp [normalize_kinase_rows, hcols, hconf]
      have ht' :
          ({ hasKinase := t.hasKinase, hasMotif := t.hasMotif, hasConf := t.hasConf,
             rows := dropDupMK (((t.rows.flatMap explodeRowConf).map stripConfKinase).filter
               (fun r => !r.kinase.isEmpty)) } : KTable) = t' :=
        Except.ok.inj (hnt.symm.trans h)
      subst ht'
      have hprops := normOutConf_props t.rows
      have hflat : (dropDupMK (((t.rows.flatMap explodeRowConf).map stripConfKinase).filter
            (fun r => !r.kinase.isEmpty))).flatMap explodeRowConf
          = dropDupMK (((t.rows.flatMap explodeRowConf).map stripConfKinase).filter
            (fun r => !r.kinase.isEmpty)) :=
        flatMap_eq_self _ _ (fun r hr =>
          explodeRowConf_fixed r ((hprops r hr).1.1) ((hprops r hr).2.1))
      have hmap : (dropDupMK (((t.rows.flatMap explodeRowConf).map stripConfKinase).filter
            (fun r => !r.kinase.isEmpty))).map stripConfKinase
          = dropDupMK (((t.rows.flatMap explodeRowConf).map stripConfKinase).filter
            (fun r => !r.kinase.isEmpty)) :=
        map_eq_self _ _ (fun r hr =>
          stripConfKinase_fixed r ((hprops r hr).1.2.1) ((hprops r hr).2.2))
      have hfil : (dropDupMK (((t.rows.flatMap explodeRowConf).map stripConfKinase).filter
            (fun r => !r.kinase.isEmpty))).filter (fun r => !r.kinase.isEmpty)
          = dropDupMK (((t.rows.flatMap explodeRowConf).map stripConfKinase).filter
            (fun r => !r.kinase.isEmpty)) :=
        List.filter_eq_self.mpr (fun r hr => by simpa using (hprops r hr).1.2.2)
      have hdd : dropDupMK (dropDupMK (((t.rows.flatMap explodeRowConf).map stripConfKinase).filter
            (fun r => !r.kinase.isEmpty)))
          = dropDupMK (((t.rows.flatMap explodeRowConf).map stripConfKinase).filter
            (fun r => !r.kinase.isEmpty)) :=
        dropDupMKAux_eq_self [] _ (dropDupMKAux_props [] _).1 (by simp)
      simp only [normalize_kinase_rows, hcols, hconf, if_true]
      rw [hflat, hmap, hfil, hdd]
    · -- Confidence column absent
      have hconf' : t.hasConf = false := by simpa using hconf
      have hnt : normalize_kinase_rows t = Except.ok
          { hasKinase := t.hasKinase, hasMotif := t.hasMotif, hasConf := t.hasConf,
            rows := dropDupMK (((t.rows.flatMap explodeRowK).map stripKinase).filter
              (fun r => !r.kinase.isEmpty)) } := by
        simp [normalize_kinase_rows, hcols, hconf']
      have ht' :
          ({ hasKinase := t.hasKinase, hasMotif := t.hasMotif, hasConf := t.hasConf,
             rows := dropDupMK (((t.rows.flatMap explodeRowK).map stripKinase).filter
               (fun r => !r.kinase.isEmpty)) } : KTable) = t' :=
        Except.ok.inj (hnt.symm.trans h)
      subst ht'
      have hprops := normOutK_props t.rows
      have hflat : (dropDupMK (((t.rows.flatMap explodeRowK).map stripKinase).filter
            (fun r => !r.kinase.isEmpty))).flatMap explodeRowK
          = dropDupMK (((t.rows.flatMap explodeRowK).map stripKinase).filter
            (fun r => !r.kinase.isEmpty)) :=
        flatMap_eq_self _ _ (fun r hr => explodeRowK_fixed r ((hprops r hr).1))
      have hmap : (dropDupMK (((t.rows.flatMap explodeRowK).map stripKinase).filter
            (fun r => !r.kinase.isEmpty))).map stripKinase
          = dropDupMK (((t.rows.flatMap explodeRowK).map stripKinase).filter
            (fun r => !r.kinase.isEmpty)) :=
        map_eq_self _ _ (fun r hr => stripKinase_fixed r ((hprops r hr).2.1))
      have hfil : (dropDupMK (((t.rows.flatMap explodeRowK).map stripKinase).filter
            (fun r => !r.kinase.isEmpty))).filter (fun r => !r.kinase.isEmpty)
          = dropDupMK (((t.rows.flatMap explodeRowK).map stripKinase).filter
            (fun r => !r.kinase.isEmpty)) :=
        List.filter_eq_self.mpr (fun r hr => by simpa using (hprops r hr).2.2)
      have hdd : dropDupMK (dropDupMK (((t.rows.flatMap explodeRowK).map stripKinase).filter
            (fun r => !r.kinase.isEmpty)))
          = dropDupMK (((t.rows.flatMap explodeRowK).map stripKinase).filter
            (fun r => !r.kinase.isEmpty)) :=
        dropDupMKAux_eq_self [] _ (dropDupMKAux_props [] _).1 (by simp)
      simp only [normalize_kinase_rows, hcols, hconf', Bool.false_eq_true, if_false, if_true]
      rw [hflat, hmap, hfil, hdd]
  · simp [normalize_kinase_rows, hcols] at h

/-- A concrete two-kinase input table for the idempotence witness. -/
def tblW : KTable :=
  { hasKinase := true, hasMotif := true, hasConf := true,
    rows := [{ gene := "G1".data, motif := "M1".data,
               kinase := "PKA, CK2".data, conf := "0.6,0.7".data }] }

/-- The normalised form of `tblW`: one kinase per row. -/
def tblW' : KTable :=
  { hasKinase := true, hasMotif := true, hasConf := true,
    rows := [{ gene := "G1".data, motif := "M1".data,
               kinase := "PKA".data, conf := "0.6".data },
             { gene := "G1".data, motif := "M1".data,
               kinase := "CK2".data, conf := "0.7".data }] }

/-- Witness for C6: normalising the already-normalised concrete table
returns it unchanged. -/
theorem normalize_kinase_rows_idempotent_witness :
    normalize_kinase_rows tblW' = Except.ok tblW' :=
  normalize_kinase_rows_idempotent tblW tblW' (by rfl)
